import Mathlib

/-!
Verification of the Keysight E3631A power-supply driver
(`Keysight_E3631A.py`): a shallow embedding of its limit checking,
SCPI command codec, error-checked dispatcher and output-controller
state, with theorems settling the specification claims.

Values carried by the driver (voltages, currents, limits) are modelled
as exact rationals; Python strings are Lean `String`s. Stateful methods
become pure functions threading an explicit driver state, an explicit
instrument (a step function on an instrument-state type), and a trace
of dispatched commands; `raise` becomes `Except.error` and
`warnings.warn` an accumulated list of warning values.
-/

attribute [local semireducible] Rat.mul Rat.add Rat.sub Rat.inv Rat.ofScientific

deriving instance DecidableEq for Except

/-! ## List and string utilities (models of Python str primitives) -/

/-- Model of Python `str.split(sep)` for a one-character separator,
on the character list: `splitOnCharList ',' "a,b"` is `[['a'],['b']]`. -/
def splitOnCharList (sep : Char) : List Char → List (List Char)
  | [] => [[]]
  | c :: cs =>
      let r := splitOnCharList sep cs
      if c = sep then [] :: r
      else (c :: r.headI) :: r.tail

/-- Model of Python `str.upper()` (character-wise upper-casing; the
ASCII command tokens this driver handles make this exact). -/
def pyUpper (s : String) : String := ⟨s.data.map Char.toUpper⟩

/-- Model of Python `str.split(',')` on strings. -/
def splitOnComma (s : String) : List String :=
  (splitOnCharList ',' s.data).map (fun l => ⟨l⟩)

/-- Model of Python `str.strip(c)` for a one-character argument:
drops every copy of `c` from both ends. -/
def stripChar (c : Char) (s : String) : String :=
  ⟨((s.data.dropWhile (· = c)).reverse.dropWhile (· = c)).reverse⟩

/-- Model of `responce.endswith('\r\n')` from `send_scpi_command`. -/
def endsWithCRLF (s : String) : Bool :=
  s.data.reverse.take 2 = ['\n', '\r']

/-- Model of the CRLF stripping in `send_scpi_command`
(`responce[:-2]` when the responce ends with `'\r\n'`, identity
otherwise). -/
def stripCRLF (s : String) : String :=
  if endsWithCRLF s then ⟨s.data.dropLast.dropLast⟩ else s

/-- Drops one trailing newline when present; used by the simulated
instrument to recover the command text from the written bytes. -/
def chopNL (s : String) : String :=
  if s.data.reverse.take 1 = ['\n'] then ⟨s.data.reverse.tail.reverse⟩ else s

/-! ## Decimal digit strings (models of Python float formatting/parsing) -/

/-- Value of a little-endian base-10 digit list. -/
def ofDigits10 : List ℕ → ℕ
  | [] => 0
  | d :: ds => d + 10 * ofDigits10 ds

/-- Little-endian base-10 digits of a natural number (fuelled). -/
def natDigitsAux : ℕ → ℕ → List ℕ
  | 0, _ => []
  | _ + 1, 0 => []
  | f + 1, n + 1 => (n + 1) % 10 :: natDigitsAux f ((n + 1) / 10)

/-- Little-endian base-10 digits of a natural number. -/
def natDigits (n : ℕ) : List ℕ := natDigitsAux n n

/-- Character of a single decimal digit. -/
def digitChar10 (d : ℕ) : Char := Char.ofNat (48 + d)

/-- Numeric value of a decimal digit character. -/
def charVal (c : Char) : ℕ := c.toNat - 48

/-- Decimal digit test on characters. -/
def isDig (c : Char) : Bool := 48 ≤ c.toNat && c.toNat ≤ 57

/-- Big-endian character rendering of a natural number. -/
def natToChars (n : ℕ) : List Char :=
  if n = 0 then ['0'] else ((natDigits n).map digitChar10).reverse

/-- Numeric value of a big-endian decimal character string. -/
def ofChars (l : List Char) : ℕ := ofDigits10 ((l.map charVal).reverse)

/-- Left pad with `'0'` up to length `k`. -/
def padZeros (k : ℕ) (l : List Char) : List Char :=
  List.replicate (k - l.length) '0' ++ l

/-- Renders `n / 10^6` with exactly six fractional decimal digits;
this is the integer-scaled core of Python `'{:6f}'.format`. -/
def formatScaled (n : ℤ) : String :=
  let s := n.natAbs
  let ip := natToChars (s / 1000000)
  let fp := padZeros 6 (natToChars (s % 1000000))
  ⟨(if n < 0 then ['-'] else []) ++ ip ++ '.' :: fp⟩

/-- Unsigned part of the model of Python `float(str)` on plain decimal
literals: digits, an optional dot, digits (at least one digit overall). -/
def pyFloatCore (l : List Char) : Option ℚ :=
  let ip := l.takeWhile isDig
  let rest := l.dropWhile isDig
  match rest with
  | [] => if ip.isEmpty then none else some ((ofChars ip : ℕ) : ℚ)
  | '.' :: rest2 =>
      let fp := rest2.takeWhile isDig
      let rest3 := rest2.dropWhile isDig
      if rest3.isEmpty && !(ip.isEmpty && fp.isEmpty) then
        some (((ofChars ip : ℕ) : ℚ) + ((ofChars fp : ℕ) : ℚ) / 10 ^ fp.length)
      else none
  | _ => none

/-- Model of Python `float(str)` on the decimal literal forms handled by
this driver (an optional sign, digits, an optional dot); it returns
`none` where `float` raises `ValueError`. -/
def pyFloat (s : String) : Option ℚ :=
  match s.data with
  | [] => none
  | c :: rest =>
      if c = '-' then (pyFloatCore rest).map (fun x => -x)
      else if c = '+' then pyFloatCore rest
      else pyFloatCore (c :: rest)

/-! ## Rounding and tolerance -/

/-- Round-half-to-even of a rational to an integer, the tie behaviour of
Python `round` and of float formatting. -/
def rndHE (q : ℚ) : ℤ :=
  let f := ⌊q⌋
  let r := q - f
  if r < 1 / 2 then f
  else if 1 / 2 < r then f + 1
  else if f % 2 = 0 then f else f + 1

/-- Number of resolved digits kept by internal rounding by the power
supply (`_SUPPLY_RESOLVED_DIGITS` in the source). -/
def SUPPLY_RESOLVED_DIGITS : ℕ := 4

/-- Model of `round(volt, _SUPPLY_RESOLVED_DIGITS)` in the setters. -/
def round4 (q : ℚ) : ℚ :=
  (rndHE (q * 10 ^ SUPPLY_RESOLVED_DIGITS) : ℚ) / 10 ^ SUPPLY_RESOLVED_DIGITS

/-- Model of `'{:6f}'.format(float(v))`: fixed-point rendering with six
fractional digits, used by `_generate_apply_command`. -/
def fmt6 (q : ℚ) : String := formatScaled (rndHE (q * 1000000))

/-- Exact value denoted by the six-digit rendering of `q`. -/
def fmt6val (q : ℚ) : ℚ := (rndHE (q * 1000000) : ℚ) / 1000000

/-- Model of `math.isclose` with its default relative tolerance `1e-09`
and absolute tolerance `0`, used by the getters. -/
def isclose (a b : ℚ) : Bool :=
  |a - b| ≤ (1 / 10 ^ 9) * max |a| |b|

/-! ## Data model -/

/-- Output channels of the instrument. -/
inductive Channel
  | P6V
  | P25V
  | N25V
deriving DecidableEq

/-- The two controlled quantities per channel. -/
inductive Quantity
  | voltage
  | current
deriving DecidableEq

/-- The three limit tiers checked by every setter. -/
inductive Tier
  | Factory
  | User
  | Instance
deriving DecidableEq

/-- Data carried by the `ValueError` a setter raises when a limit tier
rejects a value: the tier, the channel/quantity, the tier's bounds and
the offending value (the source formats these into the message). -/
structure LimitViolation where
  tier : Tier
  channel : Channel
  quantity : Quantity
  lo : ℚ
  hi : ℚ
  value : ℚ
deriving DecidableEq

/-- Errors raised by the driver, named after the specification's error
taxonomy: `limitViolation` is the setters' bound `ValueError`,
`malformedResponse` the getters' unpack/`float` `ValueError`,
`assertionFailure` the getters' `assert` (carrying the class-held and
the instrument-read value), `unsupportedOperation` the deleters'
`RuntimeError` (carrying its message), `invalidChannel` and
`valueError` the `ValueError`s of `_generate_apply_command`. -/
inductive DriverError
  | limitViolation (lv : LimitViolation)
  | malformedResponse
  | assertionFailure (classValue supplyValue : ℚ)
  | unsupportedOperation (msg : String)
  | invalidChannel
  | valueError
deriving DecidableEq

/-- Warning-class conditions surfaced by `warnings.warn` in
`send_scpi_command`: a blank error responce (`NoResponse` in the spec)
or an instrument-reported error for a command (`InstrumentError`). -/
inductive ScpiWarning
  | noResponse
  | instrumentError (command : String)
deriving DecidableEq

/-- One transport round trip: the bytes written to the serial port and
the raw bytes read back. -/
structure IOEvent where
  written : String
  readBack : String
deriving DecidableEq

/-- The mutable state of a `Keysight_E3631A` instance: the six stored
setpoints (`_P6V_voltage`, ...) and the twelve instance limits
(`MIN_P6V_VOLTAGE`, ...). -/
structure SupplyState where
  P6V_voltage : ℚ
  P25V_voltage : ℚ
  N25V_voltage : ℚ
  P6V_current : ℚ
  P25V_current : ℚ
  N25V_current : ℚ
  MIN_P6V_VOLTAGE : ℚ
  MAX_P6V_VOLTAGE : ℚ
  MIN_P25V_VOLTAGE : ℚ
  MAX_P25V_VOLTAGE : ℚ
  MIN_N25V_VOLTAGE : ℚ
  MAX_N25V_VOLTAGE : ℚ
  MIN_P6V_CURRENT : ℚ
  MAX_P6V_CURRENT : ℚ
  MIN_P25V_CURRENT : ℚ
  MAX_P25V_CURRENT : ℚ
  MIN_N25V_CURRENT : ℚ
  MAX_N25V_CURRENT : ℚ
deriving DecidableEq

/-- The process-wide user limit variables (`USER_MIN_P6V_VOLTAGE`, ...),
module-level globals read by every setter. -/
structure UserLimits where
  MIN_P6V_VOLTAGE : ℚ
  MAX_P6V_VOLTAGE : ℚ
  MIN_P25V_VOLTAGE : ℚ
  MAX_P25V_VOLTAGE : ℚ
  MIN_N25V_VOLTAGE : ℚ
  MAX_N25V_VOLTAGE : ℚ
  MIN_P6V_CURRENT : ℚ
  MAX_P6V_CURRENT : ℚ
  MIN_P25V_CURRENT : ℚ
  MAX_P25V_CURRENT : ℚ
  MIN_N25V_CURRENT : ℚ
  MAX_N25V_CURRENT : ℚ
deriving DecidableEq

/-- Factory minimum bounds (`_FACTORY_MIN_*` constants). -/
def factoryMin : Channel → Quantity → ℚ
  | .P6V, .voltage => 0
  | .P25V, .voltage => 0
  | .N25V, .voltage => -25
  | .P6V, .current => 0
  | .P25V, .current => 0
  | .N25V, .current => 0

/-- Factory maximum bounds (`_FACTORY_MAX_*` constants). -/
def factoryMax : Channel → Quantity → ℚ
  | .P6V, .voltage => 6
  | .P25V, .voltage => 25
  | .N25V, .voltage => 0
  | .P6V, .current => 5
  | .P25V, .current => 1
  | .N25V, .current => 1

/-- User minimum bound for a channel/quantity. -/
def userMin (u : UserLimits) : Channel → Quantity → ℚ
  | .P6V, .voltage => u.MIN_P6V_VOLTAGE
  | .P25V, .voltage => u.MIN_P25V_VOLTAGE
  | .N25V, .voltage => u.MIN_N25V_VOLTAGE
  | .P6V, .current => u.MIN_P6V_CURRENT
  | .P25V, .current => u.MIN_P25V_CURRENT
  | .N25V, .current => u.MIN_N25V_CURRENT

/-- User maximum bound for a channel/quantity. -/
def userMax (u : UserLimits) : Channel → Quantity → ℚ
  | .P6V, .voltage => u.MAX_P6V_VOLTAGE
  | .P25V, .voltage => u.MAX_P25V_VOLTAGE
  | .N25V, .voltage => u.MAX_N25V_VOLTAGE
  | .P6V, .current => u.MAX_P6V_CURRENT
  | .P25V, .current => u.MAX_P25V_CURRENT
  | .N25V, .current => u.MAX_N25V_CURRENT

/-- Instance minimum bound for a channel/quantity (`self.MIN_*`). -/
def instMin (st : SupplyState) : Channel → Quantity → ℚ
  | .P6V, .voltage => st.MIN_P6V_VOLTAGE
  | .P25V, .voltage => st.MIN_P25V_VOLTAGE
  | .N25V, .voltage => st.MIN_N25V_VOLTAGE
  | .P6V, .current => st.MIN_P6V_CURRENT
  | .P25V, .current => st.MIN_P25V_CURRENT
  | .N25V, .current => st.MIN_N25V_CURRENT

/-- Instance maximum bound for a channel/quantity (`self.MAX_*`). -/
def instMax (st : SupplyState) : Channel → Quantity → ℚ
  | .P6V, .voltage => st.MAX_P6V_VOLTAGE
  | .P25V, .voltage => st.MAX_P25V_VOLTAGE
  | .N25V, .voltage => st.MAX_N25V_VOLTAGE
  | .P6V, .current => st.MAX_P6V_CURRENT
  | .P25V, .current => st.MAX_P25V_CURRENT
  | .N25V, .current => st.MAX_N25V_CURRENT

/-- Stored setpoint of a channel/quantity (`self._P6V_voltage`, ...). -/
def SupplyState.setpoint (st : SupplyState) : Channel → Quantity → ℚ
  | .P6V, .voltage => st.P6V_voltage
  | .P25V, .voltage => st.P25V_voltage
  | .N25V, .voltage => st.N25V_voltage
  | .P6V, .current => st.P6V_current
  | .P25V, .current => st.P25V_current
  | .N25V, .current => st.N25V_current

/-- State with one stored setpoint replaced (the assignment
`self._P6V_voltage = volt`, ...). -/
def SupplyState.withSetpoint (st : SupplyState) : Channel → Quantity → ℚ → SupplyState
  | .P6V, .voltage, v => { st with P6V_voltage := v }
  | .P25V, .voltage, v => { st with P25V_voltage := v }
  | .N25V, .voltage, v => { st with N25V_voltage := v }
  | .P6V, .current, v => { st with P6V_current := v }
  | .P25V, .current, v => { st with P25V_current := v }
  | .N25V, .current, v => { st with N25V_current := v }

/-- Default user limits: the factory values (`copy.deepcopy` of the
factory constants at module load). -/
def defaultUserLimits : UserLimits :=
  ⟨0, 6, 0, 25, -25, 0, 0, 5, 0, 1, 0, 1⟩

/-- Default instance state: all setpoints `float()` (zero), instance
limits the factory values. -/
def defaultState : SupplyState :=
  ⟨0, 0, 0, 0, 0, 0, 0, 6, 0, 25, -25, 0, 0, 5, 0, 1, 0, 1⟩

/-- Factory-tier acceptance (`_FACTORY_MIN <= v <= _FACTORY_MAX`). -/
def withinFactory (ch : Channel) (q : Quantity) (v : ℚ) : Prop :=
  factoryMin ch q ≤ v ∧ v ≤ factoryMax ch q

/-- User-tier acceptance (`USER_MIN <= v <= USER_MAX`). -/
def withinUser (u : UserLimits) (ch : Channel) (q : Quantity) (v : ℚ) : Prop :=
  userMin u ch q ≤ v ∧ v ≤ userMax u ch q

/-- Instance-tier acceptance (`self.MIN <= v <= self.MAX`). -/
def withinInstance (st : SupplyState) (ch : Channel) (q : Quantity) (v : ℚ) : Prop :=
  instMin st ch q ≤ v ∧ v ≤ instMax st ch q

instance (ch : Channel) (q : Quantity) (v : ℚ) : Decidable (withinFactory ch q v) :=
  inferInstanceAs (Decidable (_ ∧ _))

instance (u : UserLimits) (ch : Channel) (q : Quantity) (v : ℚ) :
    Decidable (withinUser u ch q v) :=
  inferInstanceAs (Decidable (_ ∧ _))

instance (st : SupplyState) (ch : Channel) (q : Quantity) (v : ℚ) :
    Decidable (withinInstance st ch q v) :=
  inferInstanceAs (Decidable (_ ∧ _))

/-! ## Command codec (`_generate_apply_command` and response parsing) -/

/-- Protocol token of a channel. -/
def chanToken : Channel → String
  | .P6V => "P6V"
  | .P25V => "P25V"
  | .N25V => "N25V"

/-- Value argument of `_generate_apply_command`: Python `None`, a
string, or a number. -/
inductive ValArg
  | noneV
  | strV (s : String)
  | numV (q : ℚ)
deriving DecidableEq

/-- Conversion of one value argument to its command text, following
`_generate_apply_command`: `None` becomes the empty string; a string
whose upper case is `''`, `'DEF'`, `'MIN'` or `'MAX'` passes through
upper-cased; anything else goes through `float` and `'{:6f}'.format`.
A non-numeric string makes `float` raise `ValueError`. -/
def formatValArg : ValArg → Except DriverError String
  | .noneV => .ok ""
  | .strV s =>
      if pyUpper s = "" ∨ pyUpper s = "DEF" ∨ pyUpper s = "MIN" ∨ pyUpper s = "MAX" then
        .ok (pyUpper s)
      else
        match pyFloat s with
        | some q => .ok (fmt6 q)
        | none => .error .valueError
  | .numV q => .ok (fmt6 q)

/-- Model of `_generate_apply_command(output, voltage, current,
request)`: upper-cases and validates the output channel (raising
`ValueError` — `InvalidChannel` in the spec taxonomy — for an unknown
one), converts both values, then builds either the query form
`APPLy? {out}` or the set form `APPLy {out},{volt},{curr}`. -/
def generate_apply_command (output : String) (voltage current : ValArg)
    (request : Bool) : Except DriverError String :=
  let out := pyUpper output
  if out = "P6V" ∨ out = "P25V" ∨ out = "N25V" then
    match formatValArg voltage with
    | .error e => .error e
    | .ok voltage_str =>
      match formatValArg current with
      | .error e => .error e
      | .ok current_str =>
        if request then .ok ("APPLy? " ++ out)
        else .ok ("APPLy " ++ out ++ "," ++ voltage_str ++ "," ++ current_str)
  else .error .invalidChannel

/-- The set-form apply command built by an accepted setter. -/
def applyCommandString (ch : Channel) (v c : ℚ) : String :=
  "APPLy " ++ chanToken ch ++ "," ++ fmt6 v ++ "," ++ fmt6 c

/-- The query-form apply command built by a getter. -/
def queryCommandString (ch : Channel) : String :=
  "APPLy? " ++ chanToken ch

/-- Field of a dual response selected by a quantity: the getters for a
voltage unpack the first comma-separated field, those for a current the
second. -/
def dualField (q : Quantity) (a b : String) : String :=
  match q with
  | .voltage => a
  | .current => b

/-- Model of the inline dual-response parsing in every getter:
`volt, curr = result.split(',')` (a `ValueError` — `MalformedResponse`
in the spec taxonomy — unless the split yields exactly two fields),
then `field.strip('"')` and `float(field)` on the requested field
only. -/
def parse_dual_field (raw : String) (q : Quantity) : Except DriverError ℚ :=
  match splitOnComma raw with
  | [a, b] =>
      match pyFloat (stripChar '"' (dualField q a b)) with
      | some x => .ok x
      | none => .error .malformedResponse
  | _ => .error .malformedResponse

/-! ## Error-checked dispatcher (`send_scpi_command`) -/

/-- The canonical no-error responce string checked by the dispatcher. -/
def noErrorString : String := "+0,\"No error\""

/-- Result of a dispatcher call: the responce handed back to the caller,
the instrument state after the call, the transport round trips made and
the warnings surfaced. -/
structure ScpiResult (I : Type) where
  responce : String
  instr : I
  events : List IOEvent
  warns : List ScpiWarning

/-- One transport round trip, modelling `_send_raw_scpi_command`
framing: append a single newline to the command, write the bytes, read
the raw responce, strip a trailing CRLF when present. -/
def transact {I : Type} (step : I → String → String × I) (i : I)
    (command : String) : String × I × IOEvent :=
  let bytes := command ++ "\n"
  let (raw, i2) := step i bytes
  (stripCRLF raw, i2, ⟨bytes, raw⟩)

/-- Model of `send_scpi_command(command, _escape=True)`: one round trip,
the responce returned unchecked. -/
def send_scpi_escaped {I : Type} (step : I → String → String × I) (i : I)
    (command : String) : ScpiResult I :=
  let (r, i2, e) := transact step i command
  ⟨r, i2, [e], []⟩

/-- Model of `send_scpi_command(command)` with error checking: one round
trip giving responce `R`; if `R` is the no-error string return it;
otherwise query `SYSTem:ERRor?` with the escape flag set giving `E`;
a blank `E` surfaces a no-responce warning and returns `R`; `E` equal to
the no-error string returns `R`; otherwise an instrument-error warning
carrying the original command is surfaced and `E` is returned instead
of `R`. -/
def send_scpi {I : Type} (step : I → String → String × I) (i : I)
    (command : String) : ScpiResult I :=
  let (responce, i2, e) := transact step i command
  if responce = noErrorString then ⟨responce, i2, [e], []⟩
  else
    let eq := send_scpi_escaped step i2 "SYSTem:ERRor?"
    let error_message := eq.responce
    if error_message.length = 0 then
      ⟨responce, eq.instr, e :: eq.events, [.noResponse]⟩
    else if error_message = noErrorString then
      ⟨responce, eq.instr, e :: eq.events, []⟩
    else
      ⟨error_message, eq.instr, e :: eq.events, [.instrumentError command]⟩

/-- Model of `send_scpi_command(command, _escape)`: dispatch to either
form on the escape flag (the recursive escaped call of the source is
unrolled into `send_scpi_escaped`). -/
def send_scpi_command {I : Type} (step : I → String → String × I) (i : I)
    (command : String) (escape : Bool) : ScpiResult I :=
  if escape then send_scpi_escaped step i command else send_scpi step i command

/-! ## Output controller (property getters/setters/deleters) -/

/-- Result of one controller operation: the returned value or raised
error, the instance state after the call, the instrument state after
the call, the commands dispatched through `send_scpi_command`, the
transport round trips and the warnings surfaced. -/
structure OpResult (I α : Type) where
  result : Except DriverError α
  state : SupplyState
  instr : I
  sent : List String
  events : List IOEvent
  warns : List ScpiWarning

/-- Model of the six setters (`set_P6V_voltage`, ...): check the
factory, user and instance limits in that order, raising on the first
failure before any assignment or dispatch; on acceptance round to the
resolved digits, store the setpoint, then build and dispatch one apply
command carrying the stored voltage and the stored current of the
channel. The responce of the dispatch is discarded (`__ = ...`), so the
stored setpoint stands whatever the instrument reports. -/
def set_setpoint {I : Type} (step : I → String → String × I) (i : I)
    (u : UserLimits) (st : SupplyState) (ch : Channel) (q : Quantity)
    (v : ℚ) : OpResult I Unit :=
  if withinFactory ch q v then
    if withinUser u ch q v then
      if withinInstance st ch q v then
        let v2 := round4 v
        let st2 := st.withSetpoint ch q v2
        match generate_apply_command (chanToken ch)
            (.numV (st2.setpoint ch .voltage)) (.numV (st2.setpoint ch .current))
            false with
        | .error e => ⟨.error e, st2, i, [], [], []⟩
        | .ok command =>
          let r := send_scpi step i command
          ⟨.ok (), st2, r.instr, [command], r.events, r.warns⟩
      else
        ⟨.error (.limitViolation
            ⟨.Instance, ch, q, instMin st ch q, instMax st ch q, v⟩),
          st, i, [], [], []⟩
    else
      ⟨.error (.limitViolation
          ⟨.User, ch, q, userMin u ch q, userMax u ch q, v⟩),
        st, i, [], [], []⟩
  else
    ⟨.error (.limitViolation
        ⟨.Factory, ch, q, factoryMin ch q, factoryMax ch q, v⟩),
      st, i, [], [], []⟩

/-- Model of the six getters (`get_P6V_voltage`, ...): build the query
apply command, dispatch it, split the responce on the comma into
exactly two fields, strip quotes from and `float` the requested field,
then `assert math.isclose(supply_value, class_value)`; the supply value
is returned when the assertion holds. No branch assigns a setpoint. -/
def get_setpoint {I : Type} (step : I → String → String × I) (i : I)
    (st : SupplyState) (ch : Channel) (q : Quantity) : OpResult I ℚ :=
  match generate_apply_command (chanToken ch) .noneV .noneV true with
  | .error e => ⟨.error e, st, i, [], [], []⟩
  | .ok request_command =>
    let r := send_scpi step i request_command
    match parse_dual_field r.responce q with
    | .error e => ⟨.error e, st, r.instr, [request_command], r.events, r.warns⟩
    | .ok supply_value =>
      if isclose supply_value (st.setpoint ch q) then
        ⟨.ok supply_value, st, r.instr, [request_command], r.events, r.warns⟩
      else
        ⟨.error (.assertionFailure (st.setpoint ch q) supply_value),
          st, r.instr, [request_command], r.events, r.warns⟩

/-- Message of the `RuntimeError` raised by a deleter. -/
def delMessage (ch : Channel) (q : Quantity) : String :=
  "You cannot delete the " ++ chanToken ch ++ " " ++
    (match q with | .voltage => "voltage" | .current => "current") ++
    " of your power supply."

/-- Model of the six deleters (`del_P6V_voltage`, ...): unconditionally
raise `RuntimeError` (`UnsupportedOperation` in the spec taxonomy);
nothing is assigned and nothing is dispatched. -/
def del_setpoint (st : SupplyState) (ch : Channel) (q : Quantity) :
    OpResult Unit Unit :=
  ⟨.error (.unsupportedOperation (delMessage ch q)), st, (), [], [], []⟩

/-! ## Simulated echo instrument (for the round-trip law) -/

/-- State of a simulated instrument that stores, per channel, the
voltage and current text it was last told and echoes them back. -/
structure EchoState where
  volt : Channel → String
  curr : Channel → String

/-- Echo state with one channel's stored pair replaced. -/
def echoWrite (es : EchoState) (ch : Channel) (vs cs : String) : EchoState :=
  ⟨fun c => if c = ch then vs else es.volt c,
   fun c => if c = ch then cs else es.curr c⟩

/-- Channel addressed by a set-form apply command head. -/
def chanOfApply (s : String) : Option Channel :=
  if s = "APPLy P6V" then some .P6V
  else if s = "APPLy P25V" then some .P25V
  else if s = "APPLy N25V" then some .N25V
  else none

/-- Channel addressed by a query-form apply command. -/
def chanOfQuery (s : String) : Option Channel :=
  if s = "APPLy? P6V" then some .P6V
  else if s = "APPLy? P25V" then some .P25V
  else if s = "APPLy? N25V" then some .N25V
  else none

/-- Quoted dual-value responce body. -/
def pairString (vs cs : String) : String :=
  "\"" ++ vs ++ "\",\"" ++ cs ++ "\""

/-- Step function of the simulated echo instrument: a set-form apply
command stores the two value texts for its channel and reads back
nothing; `SYSTem:ERRor?` reads back the no-error responce; a query-form
apply command reads back the stored pair, quoted, CRLF-terminated. -/
def echoStep (es : EchoState) (bytes : String) : String × EchoState :=
  let cmd := chopNL bytes
  match splitOnComma cmd with
  | [c1, vs, cs] =>
      match chanOfApply c1 with
      | some ch => ("", echoWrite es ch vs cs)
      | none => ("", es)
  | [c1] =>
      if c1 = "SYSTem:ERRor?" then (noErrorString ++ "\r\n", es)
      else
        match chanOfQuery c1 with
        | some ch => (pairString (es.volt ch) (es.curr ch) ++ "\r\n", es)
        | none => ("", es)
  | _ => ("", es)

/-- An all-zero echo instrument state. -/
def defaultEchoState : EchoState :=
  ⟨fun _ => "0.000000", fun _ => "0.000000"⟩

/-! ## Lemmas: splitting, stripping and framing of strings -/

theorem splitOnCharList_of_not_mem {sep : Char} {l : List Char} (h : sep ∉ l) :
    splitOnCharList sep l = [l] := by
  induction l with
  | nil => rfl
  | cons c cs ih =>
      have hc : ¬ c = sep := fun e => h (e ▸ List.mem_cons_self c cs)
      have hcs : sep ∉ cs := fun m => h (List.mem_cons_of_mem _ m)
      simp [splitOnCharList, hc, ih hcs]

theorem splitOnCharList_append {sep : Char} {xs : List Char} (ys : List Char)
    (h : sep ∉ xs) :
    splitOnCharList sep (xs ++ sep :: ys) = xs :: splitOnCharList sep ys := by
  induction xs with
  | nil => simp [splitOnCharList]
  | cons x xs ih =>
      have hx : ¬ x = sep := fun e => h (e ▸ List.mem_cons_self x xs)
      have hxs : sep ∉ xs := fun m => h (List.mem_cons_of_mem _ m)
      simp [splitOnCharList, hx, ih hxs]

theorem data_append (s t : String) : (s ++ t).data = s.data ++ t.data :=
  String.data_append s t

theorem not_mem_wrap {a c : Char} {l : List Char} (hc : a ≠ c) (h : a ∉ l) :
    a ∉ (c :: l ++ [c]) := by
  intro m
  rcases List.mem_cons.1 m with h1 | h1
  · exact hc h1
  · rcases List.mem_append.1 h1 with h2 | h2
    · exact h h2
    · exact hc (List.mem_singleton.1 h2)

theorem splitOnComma_pairString {vs cs : String}
    (h1 : ',' ∉ vs.data) (h2 : ',' ∉ cs.data) :
    splitOnComma (pairString vs cs) = ["\"" ++ vs ++ "\"", "\"" ++ cs ++ "\""] := by
  have hdata : (pairString vs cs).data
      = ('"' :: vs.data ++ ['"']) ++ ',' :: ('"' :: cs.data ++ ['"']) := by
    simp [pairString, data_append]
  have hm1 := @not_mem_wrap ',' '"' vs.data (by decide) h1
  have hm2 := @not_mem_wrap ',' '"' cs.data (by decide) h2
  have hq1 : ("\"" ++ vs ++ "\"").data = '"' :: vs.data ++ ['"'] := by
    simp [data_append]
  have hq2 : ("\"" ++ cs ++ "\"").data = '"' :: cs.data ++ ['"'] := by
    simp [data_append]
  unfold splitOnComma
  rw [hdata, splitOnCharList_append _ hm1, splitOnCharList_of_not_mem hm2]
  simp [String.ext_iff, hq1, hq2]

theorem splitOnComma_applyString {hd vs cs : String}
    (h0 : ',' ∉ hd.data) (h1 : ',' ∉ vs.data) (h2 : ',' ∉ cs.data) :
    splitOnComma (hd ++ "," ++ vs ++ "," ++ cs) = [hd, vs, cs] := by
  have hdata : (hd ++ "," ++ vs ++ "," ++ cs).data
      = hd.data ++ ',' :: (vs.data ++ ',' :: cs.data) := by
    simp [data_append]
  unfold splitOnComma
  rw [hdata, splitOnCharList_append _ h0, splitOnCharList_append _ h1,
    splitOnCharList_of_not_mem h2]
  simp [String.ext_iff]

theorem stripCRLF_concat (s : String) : stripCRLF (s ++ "\r\n") = s := by
  have hdata : (s ++ "\r\n").data = s.data ++ ['\r', '\n'] := by
    simp [data_append]
  have he : endsWithCRLF (s ++ "\r\n") = true := by
    simp [endsWithCRLF, hdata]
  have hd : (s.data ++ ['\r', '\n']).dropLast.dropLast = s.data := by
    have h2 : s.data ++ ['\r', '\n'] = (s.data ++ ['\r']) ++ ['\n'] := by simp
    rw [h2, List.dropLast_concat, List.dropLast_concat]
  simp [stripCRLF, he, hdata, hd, String.ext_iff]

theorem stripCRLF_of_not_ends {s : String} (h : endsWithCRLF s = false) :
    stripCRLF s = s := by
  simp [stripCRLF, h]

theorem stripCRLF_append_of_ends {s : String} (h : endsWithCRLF s = true) :
    stripCRLF s ++ "\r\n" = s := by
  have htake : s.data.reverse.take 2 = ['\n', '\r'] := by
    simpa [endsWithCRLF] using h
  have hs : s = (⟨(s.data.reverse.drop 2).reverse⟩ : String) ++ "\r\n" := by
    apply String.ext
    rw [data_append]
    have hrev : s.data.reverse = '\n' :: '\r' :: s.data.reverse.drop 2 := by
      have h0 := List.take_append_drop 2 s.data.reverse
      rw [htake] at h0
      exact h0.symm
    calc s.data = s.data.reverse.reverse := by simp
    _ = ('\n' :: '\r' :: s.data.reverse.drop 2).reverse := by rw [← hrev]
    _ = (s.data.reverse.drop 2).reverse ++ ['\r', '\n'] := by simp
  rw [hs, stripCRLF_concat]

theorem chopNL_concat (s : String) : chopNL (s ++ "\n") = s := by
  have hdata : (s ++ "\n").data = s.data ++ ['\n'] := by simp [data_append]
  simp [chopNL, hdata, String.ext_iff]

theorem dropWhile_eq_self_of_all {c : Char} {l : List Char} (h : c ∉ l) :
    l.dropWhile (· = c) = l := by
  cases l with
  | nil => rfl
  | cons x xs =>
      have hx : ¬ (x = c) := fun e => h (e ▸ List.mem_cons_self x xs)
      simp [List.dropWhile_cons, hx]

theorem strip_both {c : Char} {l : List Char} (h : c ∉ l) :
    (((c :: (l ++ [c])).dropWhile (· = c)).reverse.dropWhile (· = c)).reverse = l := by
  cases l with
  | nil => simp [List.dropWhile_cons]
  | cons x xs =>
      have hx : ¬ (x = c) := fun e => h (e ▸ List.mem_cons_self x xs)
      have hxs : c ∉ xs := fun m => h (List.mem_cons_of_mem _ m)
      have s1 : ((c :: ((x :: xs) ++ [c])).dropWhile (· = c)) = x :: (xs ++ [c]) := by
        simp [List.dropWhile_cons, hx]
      rw [s1]
      have s2 : (x :: (xs ++ [c])).reverse = c :: (xs.reverse ++ [x]) := by
        simp
      rw [s2]
      have hmem : c ∉ xs.reverse ++ [x] := by
        intro m
        rcases List.mem_append.1 m with h2 | h2
        · exact hxs (List.mem_reverse.1 h2)
        · exact hx (List.mem_singleton.1 h2).symm
      have s3 : ((c :: (xs.reverse ++ [x])).dropWhile (· = c)) = xs.reverse ++ [x] := by
        simp [List.dropWhile_cons, dropWhile_eq_self_of_all hmem]
      rw [s3]
      simp

theorem stripChar_quote_wrap {s : String} (h : '"' ∉ s.data) :
    stripChar '"' ("\"" ++ s ++ "\"") = s := by
  have hdata : ("\"" ++ s ++ "\"").data
      = '"' :: (s.data ++ ['"']) := by
    simp [data_append]
  unfold stripChar
  rw [hdata]
  exact congrArg (fun l => (⟨l⟩ : String)) (strip_both h)

theorem mk_cons_ne {c d : Char} {xs ys : List Char} (h : c ≠ d) :
    (⟨c :: xs⟩ : String) ≠ ⟨d :: ys⟩ := by
  intro e
  have := congrArg String.data e
  simp at this
  exact h this.1

/-! ## Lemmas: decimal rendering and parsing agree -/

theorem ofDigits10_append (xs ys : List ℕ) :
    ofDigits10 (xs ++ ys) = ofDigits10 xs + 10 ^ xs.length * ofDigits10 ys := by
  induction xs with
  | nil => simp [ofDigits10]
  | cons d ds ih =>
      simp [ofDigits10, ih, pow_succ]
      ring

theorem natDigitsAux_spec : ∀ f n : ℕ, n ≤ f → ofDigits10 (natDigitsAux f n) = n := by
  intro f
  induction f with
  | zero =>
      intro n h
      interval_cases n
      rfl
  | succ f ih =>
      intro n h
      match n with
      | 0 => rfl
      | n + 1 =>
          have hlt : (n + 1) / 10 < n + 1 := Nat.div_lt_self (Nat.succ_pos n) (by norm_num)
          have hdiv : (n + 1) / 10 ≤ f := by omega
          simp [natDigitsAux, ofDigits10, ih _ hdiv]
          omega

theorem natDigitsAux_lt : ∀ f n : ℕ, ∀ d ∈ natDigitsAux f n, d < 10 := by
  intro f
  induction f with
  | zero =>
      intro n d hd
      simp [natDigitsAux] at hd
  | succ f ih =>
      intro n d hd
      match n with
      | 0 => simp [natDigitsAux] at hd
      | n + 1 =>
          simp only [natDigitsAux, List.mem_cons] at hd
          rcases hd with h | h
          · subst h
            exact Nat.mod_lt _ (by norm_num)
          · exact ih _ _ h

theorem natDigitsAux_length : ∀ f n k : ℕ, n < 10 ^ k → (natDigitsAux f n).length ≤ k := by
  intro f
  induction f with
  | zero =>
      intro n k _
      simp [natDigitsAux]
  | succ f ih =>
      intro n k h
      match n with
      | 0 => simp [natDigitsAux]
      | n + 1 =>
          have hk : k ≠ 0 := by
            intro e
            subst e
            simp at h
          obtain ⟨k2, rfl⟩ : ∃ m, k = m + 1 := ⟨k - 1, by omega⟩
          have hdiv : (n + 1) / 10 < 10 ^ k2 := by
            rw [Nat.div_lt_iff_lt_mul (by norm_num : (0 : ℕ) < 10)]
            calc n + 1 < 10 ^ (k2 + 1) := h
            _ = 10 ^ k2 * 10 := by ring
          simp only [natDigitsAux, List.length_cons]
          have := ih ((n + 1) / 10) k2 hdiv
          omega

theorem digit_char_facts :
    ∀ d < 10, isDig (digitChar10 d) = true ∧ charVal (digitChar10 d) = d := by decide

theorem map_charVal_digitChar {ds : List ℕ} (h : ∀ d ∈ ds, d < 10) :
    ds.map (fun d => charVal (digitChar10 d)) = ds := by
  induction ds with
  | nil => rfl
  | cons d ds ih =>
      have h1 := (digit_char_facts d (h d (List.mem_cons_self _ _))).2
      simp [h1, ih (fun x hx => h x (List.mem_cons_of_mem _ hx))]

theorem ofChars_natToChars (n : ℕ) : ofChars (natToChars n) = n := by
  unfold natToChars ofChars
  split
  · rename_i h
    subst h
    decide
  · rw [List.map_reverse, List.reverse_reverse, List.map_map]
    have hmap : (natDigits n).map (charVal ∘ digitChar10) = natDigits n := by
      have := @map_charVal_digitChar (natDigits n)
        (fun d hd => natDigitsAux_lt n n d hd)
      simpa [Function.comp] using this
    rw [hmap]
    exact natDigitsAux_spec n n le_rfl

theorem natToChars_isDig {n : ℕ} : ∀ c ∈ natToChars n, isDig c = true := by
  intro c hc
  unfold natToChars at hc
  split at hc
  · simp at hc
    subst hc
    decide
  · simp only [List.mem_reverse, List.mem_map] at hc
    obtain ⟨d, hd, rfl⟩ := hc
    exact (digit_char_facts d (natDigitsAux_lt n n d hd)).1

theorem natToChars_ne_nil (n : ℕ) : natToChars n ≠ [] := by
  unfold natToChars
  split
  · simp
  · rename_i h
    intro he
    simp at he
    match hn : n, h with
    | n + 1, _ =>
        rw [show natDigits (n + 1) = (n + 1) % 10 :: natDigitsAux n ((n + 1) / 10) from rfl] at he
        simp at he

theorem natToChars_length_le {n k : ℕ} (hk : 1 ≤ k) (h : n < 10 ^ k) :
    (natToChars n).length ≤ k := by
  unfold natToChars
  split
  · simpa using hk
  · rw [List.length_reverse, List.length_map]
    exact natDigitsAux_length n n k h

theorem ofDigits10_replicate_zero (m : ℕ) : ofDigits10 (List.replicate m 0) = 0 := by
  induction m with
  | zero => rfl
  | succ m ih => simp [List.replicate_succ, ofDigits10, ih]

theorem ofChars_padZeros (k : ℕ) (l : List Char) :
    ofChars (padZeros k l) = ofChars l := by
  unfold ofChars padZeros
  rw [List.map_append, List.reverse_append]
  have hrep : (List.replicate (k - l.length) '0').map charVal
      = List.replicate (k - l.length) 0 := by
    rw [List.map_replicate]
    rfl
  rw [hrep, List.reverse_replicate, ofDigits10_append, ofDigits10_replicate_zero]
  simp

theorem padZeros_length {k : ℕ} {l : List Char} (h : l.length ≤ k) :
    (padZeros k l).length = k := by
  simp [padZeros]
  omega

theorem padZeros_isDig {k : ℕ} {l : List Char} (h : ∀ c ∈ l, isDig c = true) :
    ∀ c ∈ padZeros k l, isDig c = true := by
  intro c hc
  rcases List.mem_append.1 hc with h2 | h2
  · rw [List.eq_of_mem_replicate h2]
    decide
  · exact h c h2

theorem takeWhile_all {p : Char → Bool} : ∀ {l : List Char},
    (∀ c ∈ l, p c = true) → l.takeWhile p = l := by
  intro l h
  induction l with
  | nil => rfl
  | cons x xs ih =>
      simp [List.takeWhile_cons, h x (List.mem_cons_self _ _),
        ih (fun c hc => h c (List.mem_cons_of_mem _ hc))]

theorem dropWhile_all {p : Char → Bool} : ∀ {l : List Char},
    (∀ c ∈ l, p c = true) → l.dropWhile p = [] := by
  intro l h
  induction l with
  | nil => rfl
  | cons x xs ih =>
      simp [List.dropWhile_cons, h x (List.mem_cons_self _ _),
        ih (fun c hc => h c (List.mem_cons_of_mem _ hc))]

theorem takeWhile_append_not {p : Char → Bool} {xs : List Char} {y : Char}
    (ys : List Char) (hxs : ∀ c ∈ xs, p c = true) (hy : p y = false) :
    (xs ++ y :: ys).takeWhile p = xs := by
  induction xs with
  | nil => simp [List.takeWhile_cons, hy]
  | cons x xs ih =>
      simp [List.takeWhile_cons, hxs x (List.mem_cons_self _ _),
        ih (fun c hc => hxs c (List.mem_cons_of_mem _ hc))]

theorem dropWhile_append_not {p : Char → Bool} {xs : List Char} {y : Char}
    (ys : List Char) (hxs : ∀ c ∈ xs, p c = true) (hy : p y = false) :
    (xs ++ y :: ys).dropWhile p = y :: ys := by
  induction xs with
  | nil => simp [List.dropWhile_cons, hy]
  | cons x xs ih =>
      simp [List.dropWhile_cons, hxs x (List.mem_cons_self _ _),
        ih (fun c hc => hxs c (List.mem_cons_of_mem _ hc))]

theorem pyFloatCore_decimal {ip fp : List Char}
    (hip : ∀ c ∈ ip, isDig c = true) (hfp : ∀ c ∈ fp, isDig c = true)
    (hne : ip ≠ []) :
    pyFloatCore (ip ++ '.' :: fp)
      = some (((ofChars ip : ℕ) : ℚ) + ((ofChars fp : ℕ) : ℚ) / 10 ^ fp.length) := by
  unfold pyFloatCore
  rw [takeWhile_append_not fp hip (by decide), dropWhile_append_not fp hip (by decide)]
  simp only [takeWhile_all hfp, dropWhile_all hfp, List.isEmpty_nil, Bool.true_and]
  have hipe : ip.isEmpty = false := by
    cases ip with
    | nil => exact absurd rfl hne
    | cons a l => rfl
  simp [hipe]

theorem isDig_ne_minus {c : Char} (h : isDig c = true) : ¬ c = '-' := by
  rintro rfl
  exact absurd h (by decide)

theorem isDig_ne_plus {c : Char} (h : isDig c = true) : ¬ c = '+' := by
  rintro rfl
  exact absurd h (by decide)

theorem isDig_ne_comma {c : Char} (h : isDig c = true) : ¬ c = ',' := by
  rintro rfl
  exact absurd h (by decide)

theorem isDig_ne_quote {c : Char} (h : isDig c = true) : ¬ c = '"' := by
  rintro rfl
  exact absurd h (by decide)

theorem pyFloatCore_signless {l : List Char}
    (hhead : ∀ c ∈ l.head?, isDig c = true) :
    pyFloat ⟨l⟩ = pyFloatCore l := by
  cases l with
  | nil => rfl
  | cons c rest =>
      have hc : isDig c = true := hhead c rfl
      simp [pyFloat, isDig_ne_minus hc, isDig_ne_plus hc]

theorem div_mod_cast_q (s : ℕ) :
    ((s / 1000000 : ℕ) : ℚ) + ((s % 1000000 : ℕ) : ℚ) / 10 ^ 6
      = (s : ℚ) / 1000000 := by
  have h := Nat.div_add_mod s 1000000
  have hq : (1000000 : ℚ) * ((s / 1000000 : ℕ) : ℚ) + ((s % 1000000 : ℕ) : ℚ)
      = (s : ℚ) := by
    exact_mod_cast congrArg (fun x : ℕ => (x : ℚ)) h
  have h10 : (10 : ℚ) ^ 6 = 1000000 := by norm_num
  rw [h10]
  field_simp
  linarith

theorem pyFloat_formatScaled (n : ℤ) :
    pyFloat (formatScaled n) = some ((n : ℚ) / 1000000) := by
  set s := n.natAbs with hs
  set ipc := natToChars (s / 1000000) with hipc
  set fpc := padZeros 6 (natToChars (s % 1000000)) with hfpc
  have hip : ∀ c ∈ ipc, isDig c = true := fun c hc => natToChars_isDig c hc
  have hfp : ∀ c ∈ fpc, isDig c = true :=
    padZeros_isDig (fun c hc => natToChars_isDig c hc)
  have hne : ipc ≠ [] := natToChars_ne_nil _
  have hfplen : fpc.length = 6 := by
    apply padZeros_length
    apply natToChars_length_le (by norm_num)
    exact Nat.mod_lt _ (by norm_num)
  have hval : pyFloatCore (ipc ++ '.' :: fpc) = some ((s : ℚ) / 1000000) := by
    rw [pyFloatCore_decimal hip hfp hne, hipc, hfpc, ofChars_natToChars,
      ofChars_padZeros, ofChars_natToChars, hfplen]
    rw [div_mod_cast_q]
  by_cases hneg : n < 0
  · have hsz : (s : ℤ) = -n := by
      rw [hs]
      omega
    have hsq : (s : ℚ) = -(n : ℚ) := by
      have h2 := congrArg (fun x : ℤ => (x : ℚ)) hsz
      push_cast at h2
      exact h2
    have hdata : formatScaled n = (⟨'-' :: (ipc ++ '.' :: fpc)⟩ : String) := by
      apply String.ext
      unfold formatScaled
      rw [if_pos hneg]
      rfl
    rw [hdata]
    show (if ('-' : Char) = '-' then (pyFloatCore (ipc ++ '.' :: fpc)).map (fun x => -x)
      else if ('-' : Char) = '+' then pyFloatCore (ipc ++ '.' :: fpc)
      else pyFloatCore ('-' :: (ipc ++ '.' :: fpc))) = some ((n : ℚ) / 1000000)
    rw [if_pos rfl, hval]
    simp [hsq]
    ring
  · have hsz : (s : ℤ) = n := by
      rw [hs]
      omega
    have hsq : (s : ℚ) = (n : ℚ) := by
      exact_mod_cast congrArg (fun x : ℤ => (x : ℚ)) hsz
    have hdata : formatScaled n = (⟨ipc ++ '.' :: fpc⟩ : String) := by
      apply String.ext
      unfold formatScaled
      rw [if_neg hneg]
      rfl
    rw [hdata, pyFloatCore_signless, hval, hsq]
    intro c hc
    apply hip
    cases hip2 : ipc with
    | nil => exact absurd hip2 hne
    | cons a l =>
        rw [hip2] at hc
        simp at hc
        rw [← hc]
        exact List.mem_cons_self _ _

theorem formatScaled_chars {n : ℤ} :
    ∀ c ∈ (formatScaled n).data, isDig c = true ∨ c = '-' ∨ c = '.' := by
  intro c hc
  unfold formatScaled at hc
  simp only [List.append_assoc, List.mem_append, List.mem_cons] at hc
  rcases hc with h1 | h1 | h1
  · split at h1
    · right
      left
      simpa using h1
    · simp at h1
  · left
    exact natToChars_isDig c h1
  · rcases h1 with h2 | h2
    · right
      right
      exact h2
    · left
      exact padZeros_isDig (fun d hd => natToChars_isDig d hd) c h2

theorem fmt6_no_comma (q : ℚ) : ',' ∉ (fmt6 q).data := by
  intro m
  rcases formatScaled_chars ',' m with h | h | h
  · exact absurd h (by decide)
  · exact absurd h (by decide)
  · exact absurd h (by decide)

theorem fmt6_no_quote (q : ℚ) : '"' ∉ (fmt6 q).data := by
  intro m
  rcases formatScaled_chars '"' m with h | h | h
  · exact absurd h (by decide)
  · exact absurd h (by decide)
  · exact absurd h (by decide)

theorem pyFloat_fmt6 (q : ℚ) : pyFloat (fmt6 q) = some (fmt6val q) := by
  unfold fmt6 fmt6val
  exact pyFloat_formatScaled _

theorem rndHE_intCast (k : ℤ) : rndHE (k : ℚ) = k := by
  unfold rndHE
  rw [Int.floor_intCast]
  norm_num

theorem fmt6val_round4 (v : ℚ) : fmt6val (round4 v) = round4 v := by
  unfold fmt6val round4 SUPPLY_RESOLVED_DIGITS
  set m := rndHE (v * 10 ^ 4) with hm
  have h1 : ((m : ℚ) / 10 ^ 4) * 1000000 = ((m * 100 : ℤ) : ℚ) := by
    push_cast
    ring
  rw [h1, rndHE_intCast]
  push_cast
  ring

theorem isclose_self (x : ℚ) : isclose x x = true := by
  simp only [isclose, sub_self, abs_zero, decide_eq_true_eq]
  positivity

/-! ## Lemmas: codec and state bookkeeping -/

theorem generate_apply_num (ch : Channel) (v c : ℚ) :
    generate_apply_command (chanToken ch) (.numV v) (.numV c) false
      = .ok (applyCommandString ch v c) := by
  cases ch <;> rfl

theorem generate_apply_query (ch : Channel) :
    generate_apply_command (chanToken ch) .noneV .noneV true
      = .ok (queryCommandString ch) := by
  cases ch <;> rfl

theorem setpoint_withSetpoint_same (st : SupplyState) (ch : Channel)
    (q : Quantity) (v : ℚ) :
    (st.withSetpoint ch q v).setpoint ch q = v := by
  cases ch <;> cases q <;> rfl

theorem setpoint_withSetpoint_frame (st : SupplyState) (ch : Channel)
    (q : Quantity) (v : ℚ) (ch2 : Channel) (q2 : Quantity)
    (h : ¬ (ch2 = ch ∧ q2 = q)) :
    (st.withSetpoint ch q v).setpoint ch2 q2 = st.setpoint ch2 q2 := by
  cases ch <;> cases q <;> cases ch2 <;> cases q2 <;>
    first
    | rfl
    | exact absurd ⟨rfl, rfl⟩ h

theorem instMin_withSetpoint (st : SupplyState) (ch : Channel) (q : Quantity)
    (v : ℚ) (ch2 : Channel) (q2 : Quantity) :
    instMin (st.withSetpoint ch q v) ch2 q2 = instMin st ch2 q2 := by
  cases ch <;> cases q <;> cases ch2 <;> cases q2 <;> rfl

theorem instMax_withSetpoint (st : SupplyState) (ch : Channel) (q : Quantity)
    (v : ℚ) (ch2 : Channel) (q2 : Quantity) :
    instMax (st.withSetpoint ch q v) ch2 q2 = instMax st ch2 q2 := by
  cases ch <;> cases q <;> cases ch2 <;> cases q2 <;> rfl

theorem withSetpoint_self (st : SupplyState) (ch : Channel) (q : Quantity)
    (v : ℚ) (h : st.setpoint ch q = v) :
    st.withSetpoint ch q v = st := by
  subst h
  cases ch <;> cases q <;> rfl

theorem withinInstance_withSetpoint (st : SupplyState) (ch : Channel)
    (q : Quantity) (v : ℚ) (ch2 : Channel) (q2 : Quantity) (x : ℚ)
    (h : withinInstance st ch2 q2 x) :
    withinInstance (st.withSetpoint ch q v) ch2 q2 x := by
  unfold withinInstance at h ⊢
  rw [instMin_withSetpoint, instMax_withSetpoint]
  exact h

/-! ## Lemmas: the echo instrument -/

theorem echoStep_apply (es : EchoState) (ch : Channel) (v c : ℚ) :
    echoStep es (applyCommandString ch v c ++ "\n")
      = ("", echoWrite es ch (fmt6 v) (fmt6 c)) := by
  have hsplit := @splitOnComma_applyString ("APPLy " ++ chanToken ch)
    (fmt6 v) (fmt6 c) (by cases ch <;> decide) (fmt6_no_comma v)
    (fmt6_no_comma c)
  unfold echoStep applyCommandString
  rw [chopNL_concat]
  simp only [hsplit]
  cases ch <;> rfl

theorem echoStep_error (es : EchoState) :
    echoStep es ("SYSTem:ERRor?" ++ "\n") = (noErrorString ++ "\r\n", es) := by
  unfold echoStep
  rw [chopNL_concat]
  rfl

theorem echoStep_query (es : EchoState) (ch : Channel) :
    echoStep es (queryCommandString ch ++ "\n")
      = (pairString (es.volt ch) (es.curr ch) ++ "\r\n", es) := by
  unfold echoStep queryCommandString
  rw [chopNL_concat]
  cases ch <;> rfl

theorem pairString_head (vs cs : String) :
    (pairString vs cs).data.head? = some '"' := by
  unfold pairString
  simp [data_append]

theorem pairString_ne_noError (vs cs : String) :
    ¬ pairString vs cs = noErrorString := by
  intro h
  have h2 := congrArg (fun s : String => s.data.head?) h
  simp only at h2
  rw [pairString_head] at h2
  exact absurd h2 (by decide)

theorem stripCRLF_empty : stripCRLF "" = "" := rfl

theorem empty_ne_noError : ¬ ("" : String) = noErrorString := by decide

theorem send_scpi_echo_apply (es : EchoState) (ch : Channel) (v c : ℚ) :
    send_scpi echoStep es (applyCommandString ch v c)
      = ⟨"", echoWrite es ch (fmt6 v) (fmt6 c),
          [⟨applyCommandString ch v c ++ "\n", ""⟩,
           ⟨"SYSTem:ERRor?" ++ "\n", noErrorString ++ "\r\n"⟩], []⟩ := by
  unfold send_scpi send_scpi_escaped transact
  dsimp only
  rw [echoStep_apply]
  dsimp only
  rw [stripCRLF_empty, if_neg empty_ne_noError, echoStep_error]
  dsimp only
  rw [stripCRLF_concat, if_neg (by decide : ¬ noErrorString.length = 0),
    if_pos rfl]

theorem send_scpi_echo_query (es : EchoState) (ch : Channel) :
    send_scpi echoStep es (queryCommandString ch)
      = ⟨pairString (es.volt ch) (es.curr ch), es,
          [⟨queryCommandString ch ++ "\n",
            pairString (es.volt ch) (es.curr ch) ++ "\r\n"⟩,
           ⟨"SYSTem:ERRor?" ++ "\n", noErrorString ++ "\r\n"⟩], []⟩ := by
  unfold send_scpi send_scpi_escaped transact
  dsimp only
  rw [echoStep_query]
  dsimp only
  rw [stripCRLF_concat, if_neg (pairString_ne_noError _ _), echoStep_error]
  dsimp only
  rw [stripCRLF_concat, if_neg (by decide : ¬ noErrorString.length = 0),
    if_pos rfl]


theorem parse_dual_field_pair (xv xc : ℚ) (q : Quantity) :
    parse_dual_field (pairString (fmt6 xv) (fmt6 xc)) q
      = .ok (fmt6val (match q with | .voltage => xv | .current => xc)) := by
  unfold parse_dual_field
  rw [splitOnComma_pairString (fmt6_no_comma xv) (fmt6_no_comma xc)]
  cases q
  · dsimp only [dualField]
    rw [stripChar_quote_wrap (fmt6_no_quote xv), pyFloat_fmt6]
  · dsimp only [dualField]
    rw [stripChar_quote_wrap (fmt6_no_quote xc), pyFloat_fmt6]

theorem set_setpoint_echo (es : EchoState) (u : UserLimits) (st : SupplyState)
    (ch : Channel) (q : Quantity) (v : ℚ)
    (h1 : withinFactory ch q v) (h2 : withinUser u ch q v)
    (h3 : withinInstance st ch q v) :
    set_setpoint echoStep es u st ch q v
      = ⟨.ok (), st.withSetpoint ch q (round4 v),
          echoWrite es ch
            (fmt6 ((st.withSetpoint ch q (round4 v)).setpoint ch .voltage))
            (fmt6 ((st.withSetpoint ch q (round4 v)).setpoint ch .current)),
          [applyCommandString ch
            ((st.withSetpoint ch q (round4 v)).setpoint ch .voltage)
            ((st.withSetpoint ch q (round4 v)).setpoint ch .current)],
          [⟨applyCommandString ch
              ((st.withSetpoint ch q (round4 v)).setpoint ch .voltage)
              ((st.withSetpoint ch q (round4 v)).setpoint ch .current) ++ "\n", ""⟩,
           ⟨"SYSTem:ERRor?" ++ "\n", noErrorString ++ "\r\n"⟩], []⟩ := by
  unfold set_setpoint
  rw [if_pos h1, if_pos h2, if_pos h3]
  dsimp only
  rw [generate_apply_num]
  dsimp only
  rw [send_scpi_echo_apply]

theorem get_setpoint_echo (es : EchoState) (st : SupplyState) (ch : Channel)
    (q : Quantity) (xv xc : ℚ)
    (hv : es.volt ch = fmt6 xv) (hc : es.curr ch = fmt6 xc) :
    get_setpoint echoStep es st ch q
      = (if isclose (fmt6val (match q with | .voltage => xv | .current => xc))
            (st.setpoint ch q) = true then
          ⟨.ok (fmt6val (match q with | .voltage => xv | .current => xc)),
            st, es, [queryCommandString ch],
            [⟨queryCommandString ch ++ "\n",
              pairString (fmt6 xv) (fmt6 xc) ++ "\r\n"⟩,
             ⟨"SYSTem:ERRor?" ++ "\n", noErrorString ++ "\r\n"⟩], []⟩
        else
          ⟨.error (.assertionFailure (st.setpoint ch q)
              (fmt6val (match q with | .voltage => xv | .current => xc))),
            st, es, [queryCommandString ch],
            [⟨queryCommandString ch ++ "\n",
              pairString (fmt6 xv) (fmt6 xc) ++ "\r\n"⟩,
             ⟨"SYSTem:ERRor?" ++ "\n", noErrorString ++ "\r\n"⟩], []⟩) := by
  cases q <;>
    (unfold get_setpoint
     rw [generate_apply_query]
     dsimp only
     rw [send_scpi_echo_query, hv, hc]
     dsimp only
     rw [parse_dual_field_pair])

/-! ## Lemmas: dispatcher characterization -/

theorem transact_eq {I : Type} (step : I → String → String × I) (i : I)
    (cmd : String) :
    transact step i cmd
      = (stripCRLF (step i (cmd ++ "\n")).1, (step i (cmd ++ "\n")).2,
          ⟨cmd ++ "\n", (step i (cmd ++ "\n")).1⟩) := by
  unfold transact
  dsimp only

theorem send_scpi_escaped_eq {I : Type} (step : I → String → String × I)
    (i : I) (cmd : String) :
    send_scpi_escaped step i cmd
      = ⟨(transact step i cmd).1, (transact step i cmd).2.1,
          [(transact step i cmd).2.2], []⟩ := by
  unfold send_scpi_escaped
  rcases h : transact step i cmd with ⟨r, i2, e⟩
  rfl

theorem send_scpi_noerror {I : Type} (step : I → String → String × I) (i : I)
    (cmd : String) (h : (transact step i cmd).1 = noErrorString) :
    send_scpi step i cmd
      = ⟨(transact step i cmd).1, (transact step i cmd).2.1,
          [(transact step i cmd).2.2], []⟩ := by
  unfold send_scpi
  rcases ht : transact step i cmd with ⟨r, i2, e⟩
  rw [ht] at h
  dsimp only
  rw [if_pos (show r = noErrorString from h)]

theorem send_scpi_error_cases {I : Type} (step : I → String → String × I)
    (i : I) (cmd : String) (h : ¬ (transact step i cmd).1 = noErrorString) :
    send_scpi step i cmd
      = (if (send_scpi_escaped step (transact step i cmd).2.1
              "SYSTem:ERRor?").responce.length = 0 then
          ⟨(transact step i cmd).1,
            (send_scpi_escaped step (transact step i cmd).2.1 "SYSTem:ERRor?").instr,
            (transact step i cmd).2.2
              :: (send_scpi_escaped step (transact step i cmd).2.1
                  "SYSTem:ERRor?").events,
            [.noResponse]⟩
        else if (send_scpi_escaped step (transact step i cmd).2.1
              "SYSTem:ERRor?").responce = noErrorString then
          ⟨(transact step i cmd).1,
            (send_scpi_escaped step (transact step i cmd).2.1 "SYSTem:ERRor?").instr,
            (transact step i cmd).2.2
              :: (send_scpi_escaped step (transact step i cmd).2.1
                  "SYSTem:ERRor?").events,
            []⟩
        else
          ⟨(send_scpi_escaped step (transact step i cmd).2.1
              "SYSTem:ERRor?").responce,
            (send_scpi_escaped step (transact step i cmd).2.1 "SYSTem:ERRor?").instr,
            (transact step i cmd).2.2
              :: (send_scpi_escaped step (transact step i cmd).2.1
                  "SYSTem:ERRor?").events,
            [.instrumentError cmd]⟩) := by
  unfold send_scpi
  rcases ht : transact step i cmd with ⟨r, i2, e⟩
  rw [ht] at h
  dsimp only
  rw [if_neg (show ¬ r = noErrorString from h)]

theorem echoWrite_volt (es : EchoState) (ch : Channel) (vs cs : String) :
    (echoWrite es ch vs cs).volt ch = vs := by
  simp [echoWrite]

theorem echoWrite_curr (es : EchoState) (ch : Channel) (vs cs : String) :
    (echoWrite es ch vs cs).curr ch = cs := by
  simp [echoWrite]

/-! ## Claim theorems -/

/-- C1: for every channel and quantity, calling the setter with a value
outside the Factory, the User or the Instance bound raises a
`LimitViolation` error naming the tier that rejected the value and that
tier's bounds; the tiers are checked in the fixed order Factory, then
User, then Instance, failing fast on the first violation; and when any
tier rejects, no command is dispatched to the instrument (no dispatch,
no transport round trip) and the stored setpoints are unchanged. -/
theorem set_setpoint_limit_violation {I : Type} (step : I → String → String × I)
    (i : I) (u : UserLimits) (st : SupplyState) (ch : Channel) (q : Quantity)
    (v : ℚ)
    (h : ¬ (withinFactory ch q v ∧ withinUser u ch q v
            ∧ withinInstance st ch q v)) :
    ∃ lv : LimitViolation,
      (set_setpoint step i u st ch q v).result = .error (.limitViolation lv)
      ∧ (set_setpoint step i u st ch q v).sent = []
      ∧ (set_setpoint step i u st ch q v).events = []
      ∧ (set_setpoint step i u st ch q v).state = st
      ∧ lv.channel = ch ∧ lv.quantity = q ∧ lv.value = v
      ∧ (¬ withinFactory ch q v →
          lv.tier = .Factory ∧ lv.lo = factoryMin ch q ∧ lv.hi = factoryMax ch q)
      ∧ (withinFactory ch q v → ¬ withinUser u ch q v →
          lv.tier = .User ∧ lv.lo = userMin u ch q ∧ lv.hi = userMax u ch q)
      ∧ (withinFactory ch q v → withinUser u ch q v →
          lv.tier = .Instance ∧ lv.lo = instMin st ch q
            ∧ lv.hi = instMax st ch q) := by
  by_cases h1 : withinFactory ch q v
  · by_cases h2 : withinUser u ch q v
    · have h3 : ¬ withinInstance st ch q v := fun h3 => h ⟨h1, h2, h3⟩
      refine ⟨⟨.Instance, ch, q, instMin st ch q, instMax st ch q, v⟩, ?_⟩
      unfold set_setpoint
      rw [if_pos h1, if_pos h2, if_neg h3]
      exact ⟨rfl, rfl, rfl, rfl, rfl, rfl, rfl,
        fun hf => absurd h1 hf,
        fun _ hu => absurd h2 hu,
        fun _ _ => ⟨rfl, rfl, rfl⟩⟩
    · refine ⟨⟨.User, ch, q, userMin u ch q, userMax u ch q, v⟩, ?_⟩
      unfold set_setpoint
      rw [if_pos h1, if_neg h2]
      exact ⟨rfl, rfl, rfl, rfl, rfl, rfl, rfl,
        fun hf => absurd h1 hf,
        fun _ _ => ⟨rfl, rfl, rfl⟩,
        fun _ hu => absurd hu h2⟩
  · refine ⟨⟨.Factory, ch, q, factoryMin ch q, factoryMax ch q, v⟩, ?_⟩
    unfold set_setpoint
    rw [if_neg h1]
    exact ⟨rfl, rfl, rfl, rfl, rfl, rfl, rfl,
      fun _ => ⟨rfl, rfl, rfl⟩,
      fun hf _ => absurd hf h1,
      fun hf _ => absurd hf h1⟩

/-- C1 witness: setting the P6V voltage to 6.5 on a default instance
violates the bounds and the setter raises a `LimitViolation`, dispatches
nothing and leaves the state unchanged. -/
theorem set_setpoint_limit_violation_witness :
    (¬ (withinFactory .P6V .voltage (13/2)
        ∧ withinUser defaultUserLimits .P6V .voltage (13/2)
        ∧ withinInstance defaultState .P6V .voltage (13/2)))
    ∧ ∃ lv : LimitViolation,
        (set_setpoint (fun (x : Unit) (_ : String) => ("", x)) ()
            defaultUserLimits defaultState .P6V .voltage (13/2)).result
          = .error (.limitViolation lv)
        ∧ (set_setpoint (fun (x : Unit) (_ : String) => ("", x)) ()
            defaultUserLimits defaultState .P6V .voltage (13/2)).sent = []
        ∧ (set_setpoint (fun (x : Unit) (_ : String) => ("", x)) ()
            defaultUserLimits defaultState .P6V .voltage (13/2)).state
          = defaultState := by
  refine ⟨by decide, ?_⟩
  obtain ⟨lv, ha, hb, _, hd, _⟩ :=
    set_setpoint_limit_violation (fun (x : Unit) (_ : String) => ("", x)) ()
      defaultUserLimits defaultState .P6V .voltage (13/2) (by decide)
  exact ⟨lv, ha, hb, hd⟩

/-- C2: the dispatcher `send_scpi_command`, after sending a command and
reading responce `R`: with the escape flag set it returns `R` unchecked
with a single transport round trip and no error query; otherwise, when
`R` equals the canonical no-error string it returns `R` without issuing
the error query; otherwise it issues the error query (escaped) reading
`E` — a blank `E` surfaces a `NoResponse` warning and returns `R`, an
`E` equal to the no-error string returns `R`, and any other `E`
surfaces an `InstrumentError` warning carrying the original command
text and returns `E` (not `R`) as the result. -/
theorem send_scpi_command_spec {I : Type} (step : I → String → String × I)
    (i : I) (cmd : String) :
    ((send_scpi_command step i cmd true).responce = (transact step i cmd).1
      ∧ (send_scpi_command step i cmd true).events = [(transact step i cmd).2.2]
      ∧ (send_scpi_command step i cmd true).warns = [])
    ∧ ((transact step i cmd).1 = noErrorString →
        (send_scpi_command step i cmd false).responce = (transact step i cmd).1
        ∧ (send_scpi_command step i cmd false).events = [(transact step i cmd).2.2]
        ∧ (send_scpi_command step i cmd false).warns = [])
    ∧ (¬ (transact step i cmd).1 = noErrorString →
        ((transact step (transact step i cmd).2.1 "SYSTem:ERRor?").1.length = 0 →
          (send_scpi_command step i cmd false).responce = (transact step i cmd).1
          ∧ (send_scpi_command step i cmd false).warns = [.noResponse])
        ∧ (¬ (transact step (transact step i cmd).2.1 "SYSTem:ERRor?").1.length = 0 →
            (transact step (transact step i cmd).2.1 "SYSTem:ERRor?").1
                = noErrorString →
            (send_scpi_command step i cmd false).responce = (transact step i cmd).1
            ∧ (send_scpi_command step i cmd false).warns = [])
        ∧ (¬ (transact step (transact step i cmd).2.1 "SYSTem:ERRor?").1.length = 0 →
            ¬ (transact step (transact step i cmd).2.1 "SYSTem:ERRor?").1
                = noErrorString →
            (send_scpi_command step i cmd false).responce
                = (transact step (transact step i cmd).2.1 "SYSTem:ERRor?").1
            ∧ (send_scpi_command step i cmd false).warns
                = [.instrumentError cmd])) := by
  have hesc : send_scpi_command step i cmd true = send_scpi_escaped step i cmd := by
    unfold send_scpi_command
    rw [if_pos rfl]
  have hfalse : send_scpi_command step i cmd false = send_scpi step i cmd := by
    unfold send_scpi_command
    rw [if_neg (by decide : ¬ false = true)]
  refine ⟨?_, ?_, ?_⟩
  · rw [hesc, send_scpi_escaped_eq]
    exact ⟨rfl, rfl, rfl⟩
  · intro h
    rw [hfalse, send_scpi_noerror step i cmd h]
    exact ⟨rfl, rfl, rfl⟩
  · intro h
    rw [hfalse, send_scpi_error_cases step i cmd h]
    rw [send_scpi_escaped_eq]
    refine ⟨?_, ?_, ?_⟩
    · intro hlen
      rw [if_pos hlen]
      exact ⟨rfl, rfl⟩
    · intro hlen heq
      rw [if_neg hlen, if_pos heq]
      exact ⟨rfl, rfl⟩
    · intro hlen hne
      rw [if_neg hlen, if_neg hne]
      exact ⟨rfl, rfl⟩

/-- C2 witness: against an instrument that answers `BAD` to the command
and a fault string to the error query, the dispatcher surfaces an
`InstrumentError` carrying the command text and hands back the error
string, not `BAD`. -/
theorem send_scpi_command_spec_witness :
    (¬ (transact (fun (x : Unit) (b : String) =>
          (if chopNL b = "SYSTem:ERRor?" then "-113,\"Undefined header\"\r\n"
           else "BAD\r\n", x)) () "OUTP ON").1 = noErrorString)
    ∧ (send_scpi_command (fun (x : Unit) (b : String) =>
          (if chopNL b = "SYSTem:ERRor?" then "-113,\"Undefined header\"\r\n"
           else "BAD\r\n", x)) () "OUTP ON" false).responce
        = "-113,\"Undefined header\""
    ∧ (send_scpi_command (fun (x : Unit) (b : String) =>
          (if chopNL b = "SYSTem:ERRor?" then "-113,\"Undefined header\"\r\n"
           else "BAD\r\n", x)) () "OUTP ON" false).warns
        = [.instrumentError "OUTP ON"] := by
  refine ⟨by decide, ?_⟩
  have h := (send_scpi_command_spec (fun (x : Unit) (b : String) =>
      (if chopNL b = "SYSTem:ERRor?" then "-113,\"Undefined header\"\r\n"
       else "BAD\r\n", x)) () "OUTP ON").2.2 (by decide)
  obtain ⟨hr, hw⟩ := h.2.2 (by decide) (by decide)
  exact ⟨by rw [hr]; decide, hw⟩

/-- C3: for every accepted write (a value passing all three tiers), the
stored setpoint becomes the value rounded to four decimal digits, and
the single dispatched command is an apply command built from the
already-updated state, carrying both the new quantity and the channel's
other stored quantity (store happens before dispatch). The state
component holds for every instrument behaviour `step`, so the setpoint
is not rolled back when the dispatch reports an instrument error. -/
theorem set_setpoint_accepted {I : Type} (step : I → String → String × I)
    (i : I) (u : UserLimits) (st : SupplyState) (ch : Channel) (q : Quantity)
    (v : ℚ) (h1 : withinFactory ch q v) (h2 : withinUser u ch q v)
    (h3 : withinInstance st ch q v) :
    (set_setpoint step i u st ch q v).result = .ok ()
    ∧ (set_setpoint step i u st ch q v).state = st.withSetpoint ch q (round4 v)
    ∧ (set_setpoint step i u st ch q v).state.setpoint ch q = round4 v
    ∧ (∀ ch2 q2, ¬ (ch2 = ch ∧ q2 = q) →
        (set_setpoint step i u st ch q v).state.setpoint ch2 q2
          = st.setpoint ch2 q2)
    ∧ (set_setpoint step i u st ch q v).sent
        = [applyCommandString ch
            ((st.withSetpoint ch q (round4 v)).setpoint ch .voltage)
            ((st.withSetpoint ch q (round4 v)).setpoint ch .current)] := by
  unfold set_setpoint
  rw [if_pos h1, if_pos h2, if_pos h3]
  dsimp only
  rw [generate_apply_num]
  dsimp only
  exact ⟨rfl, rfl, setpoint_withSetpoint_same st ch q (round4 v),
    fun ch2 q2 hne => setpoint_withSetpoint_frame st ch q (round4 v) ch2 q2 hne,
    rfl⟩

/-- C3 witness: writing 3.5 to the P6V voltage of a default instance
stores 3.5 (its own rounding) and dispatches the single apply command
carrying the new voltage together with the stored current 0. -/
theorem set_setpoint_accepted_witness :
    withinFactory .P6V .voltage (7/2)
    ∧ withinUser defaultUserLimits .P6V .voltage (7/2)
    ∧ withinInstance defaultState .P6V .voltage (7/2)
    ∧ (set_setpoint (fun (x : Unit) (_ : String) => ("", x)) ()
        defaultUserLimits defaultState .P6V .voltage (7/2)).state.setpoint
          .P6V .voltage = round4 (7/2)
    ∧ (set_setpoint (fun (x : Unit) (_ : String) => ("", x)) ()
        defaultUserLimits defaultState .P6V .voltage (7/2)).sent
      = ["APPLy P6V,3.500000,0.000000"] := by
  have h := set_setpoint_accepted (fun (x : Unit) (_ : String) => ("", x)) ()
    defaultUserLimits defaultState .P6V .voltage (7/2)
    (by decide) (by decide) (by decide)
  refine ⟨by decide, by decide, by decide, h.2.2.1, ?_⟩
  rw [h.2.2.2.2]
  decide

/-- C5: against the simulated echo instrument, for every channel,
quantity and value within all three tier bounds, a write followed by a
read returns exactly the value rounded to the resolved digits (hence
within any tolerance of it), and writing the same value twice produces
two dispatches of the same single apply command while the stored
setpoint and the subsequent read result are unchanged between the two
calls. -/
theorem write_read_roundtrip (es : EchoState) (u : UserLimits)
    (st : SupplyState) (ch : Channel) (q : Quantity) (v : ℚ)
    (h1 : withinFactory ch q v) (h2 : withinUser u ch q v)
    (h3 : withinInstance st ch q v) :
    (set_setpoint echoStep es u st ch q v).result = .ok ()
    ∧ (get_setpoint echoStep (set_setpoint echoStep es u st ch q v).instr
        (set_setpoint echoStep es u st ch q v).state ch q).result
      = .ok (round4 v)
    ∧ isclose (round4 v) (round4 v) = true
    ∧ (set_setpoint echoStep (set_setpoint echoStep es u st ch q v).instr u
        (set_setpoint echoStep es u st ch q v).state ch q v).result = .ok ()
    ∧ (set_setpoint echoStep (set_setpoint echoStep es u st ch q v).instr u
        (set_setpoint echoStep es u st ch q v).state ch q v).state
      = (set_setpoint echoStep es u st ch q v).state
    ∧ (set_setpoint echoStep (set_setpoint echoStep es u st ch q v).instr u
        (set_setpoint echoStep es u st ch q v).state ch q v).sent
      = (set_setpoint echoStep es u st ch q v).sent
    ∧ (set_setpoint echoStep es u st ch q v).sent.length = 1
    ∧ (get_setpoint echoStep
        (set_setpoint echoStep (set_setpoint echoStep es u st ch q v).instr u
          (set_setpoint echoStep es u st ch q v).state ch q v).instr
        (set_setpoint echoStep (set_setpoint echoStep es u st ch q v).instr u
          (set_setpoint echoStep es u st ch q v).state ch q v).state
        ch q).result = .ok (round4 v) := by
  cases q with
  | voltage =>
      have hsame : (st.withSetpoint ch .voltage (round4 v)).setpoint ch .voltage
          = round4 v := setpoint_withSetpoint_same st ch .voltage (round4 v)
      have hset1 := set_setpoint_echo es u st ch .voltage v h1 h2 h3
      have h3b : withinInstance (st.withSetpoint ch .voltage (round4 v))
          ch .voltage v :=
        withinInstance_withSetpoint st ch .voltage (round4 v) ch .voltage v h3
      have hself : (st.withSetpoint ch .voltage (round4 v)).withSetpoint
            ch .voltage (round4 v)
          = st.withSetpoint ch .voltage (round4 v) :=
        withSetpoint_self _ ch .voltage (round4 v) hsame
      have hset2 := set_setpoint_echo
        (echoWrite es ch
          (fmt6 ((st.withSetpoint ch .voltage (round4 v)).setpoint ch .voltage))
          (fmt6 ((st.withSetpoint ch .voltage (round4 v)).setpoint ch .current)))
        u (st.withSetpoint ch .voltage (round4 v)) ch .voltage v h1 h2 h3b
      rw [hself] at hset2
      have hget1 := get_setpoint_echo
        (echoWrite es ch
          (fmt6 ((st.withSetpoint ch .voltage (round4 v)).setpoint ch .voltage))
          (fmt6 ((st.withSetpoint ch .voltage (round4 v)).setpoint ch .current)))
        (st.withSetpoint ch .voltage (round4 v)) ch .voltage
        ((st.withSetpoint ch .voltage (round4 v)).setpoint ch .voltage)
        ((st.withSetpoint ch .voltage (round4 v)).setpoint ch .current)
        (echoWrite_volt _ _ _ _) (echoWrite_curr _ _ _ _)
      have hget2 := get_setpoint_echo
        (echoWrite (echoWrite es ch
            (fmt6 ((st.withSetpoint ch .voltage (round4 v)).setpoint ch .voltage))
            (fmt6 ((st.withSetpoint ch .voltage (round4 v)).setpoint ch .current)))
          ch
          (fmt6 ((st.withSetpoint ch .voltage (round4 v)).setpoint ch .voltage))
          (fmt6 ((st.withSetpoint ch .voltage (round4 v)).setpoint ch .current)))
        (st.withSetpoint ch .voltage (round4 v)) ch .voltage
        ((st.withSetpoint ch .voltage (round4 v)).setpoint ch .voltage)
        ((st.withSetpoint ch .voltage (round4 v)).setpoint ch .current)
        (echoWrite_volt _ _ _ _) (echoWrite_curr _ _ _ _)
      dsimp only at hget1 hget2
      rw [hsame] at hset1 hset2 hget1 hget2
      rw [fmt6val_round4] at hget1 hget2
      rw [if_pos (isclose_self (round4 v))] at hget1 hget2
      rw [hset1]
      dsimp only
      rw [hget1, hset2]
      dsimp only
      rw [hget2]
      exact ⟨rfl, rfl, isclose_self (round4 v), rfl, rfl, rfl, rfl, rfl⟩
  | current =>
      have hsame : (st.withSetpoint ch .current (round4 v)).setpoint ch .current
          = round4 v := setpoint_withSetpoint_same st ch .current (round4 v)
      have hset1 := set_setpoint_echo es u st ch .current v h1 h2 h3
      have h3b : withinInstance (st.withSetpoint ch .current (round4 v))
          ch .current v :=
        withinInstance_withSetpoint st ch .current (round4 v) ch .current v h3
      have hself : (st.withSetpoint ch .current (round4 v)).withSetpoint
            ch .current (round4 v)
          = st.withSetpoint ch .current (round4 v) :=
        withSetpoint_self _ ch .current (round4 v) hsame
      have hset2 := set_setpoint_echo
        (echoWrite es ch
          (fmt6 ((st.withSetpoint ch .current (round4 v)).setpoint ch .voltage))
          (fmt6 ((st.withSetpoint ch .current (round4 v)).setpoint ch .current)))
        u (st.withSetpoint ch .current (round4 v)) ch .current v h1 h2 h3b
      rw [hself] at hset2
      have hget1 := get_setpoint_echo
        (echoWrite es ch
          (fmt6 ((st.withSetpoint ch .current (round4 v)).setpoint ch .voltage))
          (fmt6 ((st.withSetpoint ch .current (round4 v)).setpoint ch .current)))
        (st.withSetpoint ch .current (round4 v)) ch .current
        ((st.withSetpoint ch .current (round4 v)).setpoint ch .voltage)
        ((st.withSetpoint ch .current (round4 v)).setpoint ch .current)
        (echoWrite_volt _ _ _ _) (echoWrite_curr _ _ _ _)
      have hget2 := get_setpoint_echo
        (echoWrite (echoWrite es ch
            (fmt6 ((st.withSetpoint ch .current (round4 v)).setpoint ch .voltage))
            (fmt6 ((st.withSetpoint ch .current (round4 v)).setpoint ch .current)))
          ch
          (fmt6 ((st.withSetpoint ch .current (round4 v)).setpoint ch .voltage))
          (fmt6 ((st.withSetpoint ch .current (round4 v)).setpoint ch .current)))
        (st.withSetpoint ch .current (round4 v)) ch .current
        ((st.withSetpoint ch .current (round4 v)).setpoint ch .voltage)
        ((st.withSetpoint ch .current (round4 v)).setpoint ch .current)
        (echoWrite_volt _ _ _ _) (echoWrite_curr _ _ _ _)
      dsimp only at hget1 hget2
      rw [hsame] at hset1 hset2 hget1 hget2
      rw [fmt6val_round4] at hget1 hget2
      rw [if_pos (isclose_self (round4 v))] at hget1 hget2
      rw [hset1]
      dsimp only
      rw [hget1, hset2]
      dsimp only
      rw [hget2]
      exact ⟨rfl, rfl, isclose_self (round4 v), rfl, rfl, rfl, rfl, rfl⟩

/-- C5 witness: on a default instance and a fresh echo instrument,
writing 3.5 to the P6V voltage and reading it back returns 3.5. -/
theorem write_read_roundtrip_witness :
    withinFactory .P6V .voltage (7/2)
    ∧ withinUser defaultUserLimits .P6V .voltage (7/2)
    ∧ withinInstance defaultState .P6V .voltage (7/2)
    ∧ (get_setpoint echoStep
        (set_setpoint echoStep defaultEchoState defaultUserLimits defaultState
          .P6V .voltage (7/2)).instr
        (set_setpoint echoStep defaultEchoState defaultUserLimits defaultState
          .P6V .voltage (7/2)).state .P6V .voltage).result
      = .ok (round4 (7/2)) := by
  refine ⟨by decide, by decide, by decide, ?_⟩
  exact (write_read_roundtrip defaultEchoState defaultUserLimits defaultState
    .P6V .voltage (7/2) (by decide) (by decide) (by decide)).2.1

/-- C6: the apply-command builder yields exactly
`APPLy P6V,3.500000,1.000000` for channel `P6V`, voltage 3.5, current
1.0 in the non-query form, exactly `APPLy? P6V` for channel `P6V` with
omitted values in the query form, and fails with the `InvalidChannel`
error for any channel argument not among the three known variants (the
source upper-cases before the check, so "known" is read
case-insensitively, as the code defines the variants). -/
theorem generate_apply_command_spec :
    generate_apply_command "P6V" (.numV (7/2)) (.numV 1) false
      = .ok "APPLy P6V,3.500000,1.000000"
    ∧ generate_apply_command "P6V" .noneV .noneV true = .ok "APPLy? P6V"
    ∧ ∀ (s : String) (va ca : ValArg) (r : Bool),
        ¬ pyUpper s = "P6V" → ¬ pyUpper s = "P25V" → ¬ pyUpper s = "N25V" →
        generate_apply_command s va ca r = .error .invalidChannel := by
  refine ⟨by decide, by decide, ?_⟩
  intro s va ca r hA hB hC
  unfold generate_apply_command
  rw [if_neg]
  intro hor
  rcases hor with h | h | h
  · exact hA h
  · exact hB h
  · exact hC h

/-- C6 witness: the unknown channel `xyz` (upper-cased `XYZ`) is
rejected with `InvalidChannel`. -/
theorem generate_apply_command_spec_witness :
    (¬ pyUpper "xyz" = "P6V") ∧ (¬ pyUpper "xyz" = "P25V")
    ∧ (¬ pyUpper "xyz" = "N25V")
    ∧ generate_apply_command "xyz" .noneV .noneV true
      = .error .invalidChannel :=
  ⟨by decide, by decide, by decide,
    generate_apply_command_spec.2.2 "xyz" .noneV .noneV true
      (by decide) (by decide) (by decide)⟩

/-- C7: the dual-responce parsing of the getters splits on the comma
into exactly two fields, strips surrounding double quotes from the
requested field before the numeric conversion — so
`"3.500000","1.000000"` yields 3.5 for the voltage field and 1.0 for
the current field — and an input whose comma split does not have
exactly two fields (such as `1,2,3`), or whose requested field is not
numeric, fails with the `MalformedResponse` error. -/
theorem parse_dual_field_spec :
    parse_dual_field "\"3.500000\",\"1.000000\"" .voltage = .ok (7/2)
    ∧ parse_dual_field "\"3.500000\",\"1.000000\"" .current = .ok 1
    ∧ (∀ q : Quantity,
        parse_dual_field "1,2,3" q = .error .malformedResponse)
    ∧ (∀ (raw : String) (q : Quantity), ¬ (splitOnComma raw).length = 2 →
        parse_dual_field raw q = .error .malformedResponse)
    ∧ (∀ (raw a b : String) (q : Quantity), splitOnComma raw = [a, b] →
        pyFloat (stripChar '"' (dualField q a b)) = none →
        parse_dual_field raw q = .error .malformedResponse)
    ∧ (∀ (raw a b : String) (q : Quantity) (x : ℚ), splitOnComma raw = [a, b] →
        pyFloat (stripChar '"' (dualField q a b)) = some x →
        parse_dual_field raw q = .ok x) := by
  refine ⟨by decide, by decide, ?_, ?_, ?_, ?_⟩
  · intro q
    cases q <;> decide
  · intro raw q h
    unfold parse_dual_field
    rcases hs : splitOnComma raw with _ | ⟨a, _ | ⟨b, _ | ⟨c, l⟩⟩⟩
    · rfl
    · rfl
    · rw [hs] at h
      exact absurd rfl h
    · rfl
  · intro raw a b q hs hp
    unfold parse_dual_field
    rw [hs]
    dsimp only
    rw [hp]
  · intro raw a b q x hs hp
    unfold parse_dual_field
    rw [hs]
    dsimp only
    rw [hp]

/-- C7 witness: `1,2,3` splits into three fields, not two, and the
parse fails with `MalformedResponse`. -/
theorem parse_dual_field_spec_witness :
    (¬ (splitOnComma "1,2,3").length = 2)
    ∧ parse_dual_field "1,2,3" .voltage = .error .malformedResponse :=
  ⟨by decide, parse_dual_field_spec.2.2.2.1 "1,2,3" .voltage (by decide)⟩

/-- C8: every command sent through the dispatcher is written to the
transport as exactly the command followed by a single newline — the
written bytes of the dispatcher's round trips are the command's and,
when the error query is issued, the error query's, each
newline-terminated — and every responce read back has a trailing CRLF
stripped when present while a responce lacking the terminator is
returned as-is without error. -/
theorem dispatcher_framing {I : Type} (step : I → String → String × I)
    (i : I) (cmd : String) (esc : Bool) :
    ((send_scpi_command step i cmd esc).events.map IOEvent.written
        = [cmd ++ "\n"]
      ∨ (send_scpi_command step i cmd esc).events.map IOEvent.written
        = [cmd ++ "\n", "SYSTem:ERRor?" ++ "\n"])
    ∧ (transact step i cmd).2.2.written = cmd ++ "\n"
    ∧ (transact step i cmd).1 = stripCRLF (step i (cmd ++ "\n")).1
    ∧ (∀ s : String, endsWithCRLF s = true → stripCRLF s ++ "\r\n" = s)
    ∧ (∀ s : String, endsWithCRLF s = false → stripCRLF s = s) := by
  refine ⟨?_, by rw [transact_eq], by rw [transact_eq],
    fun s hs => stripCRLF_append_of_ends hs,
    fun s hs => stripCRLF_of_not_ends hs⟩
  cases esc with
  | true =>
      left
      have h : send_scpi_command step i cmd true = send_scpi_escaped step i cmd := by
        unfold send_scpi_command
        rw [if_pos rfl]
      rw [h, send_scpi_escaped_eq, transact_eq]
      rfl
  | false =>
      have h : send_scpi_command step i cmd false = send_scpi step i cmd := by
        unfold send_scpi_command
        rw [if_neg (by decide : ¬ false = true)]
      rw [h]
      by_cases hR : (transact step i cmd).1 = noErrorString
      · left
        rw [send_scpi_noerror step i cmd hR, transact_eq]
        rfl
      · right
        rw [send_scpi_error_cases step i cmd hR, send_scpi_escaped_eq]
        by_cases hlen :
            (transact step (transact step i cmd).2.1 "SYSTem:ERRor?").1.length = 0
        · rw [if_pos hlen]
          rw [transact_eq, transact_eq]
          rfl
        · rw [if_neg hlen]
          by_cases hE :
              (transact step (transact step i cmd).2.1 "SYSTem:ERRor?").1
                = noErrorString
          · rw [if_pos hE, transact_eq, transact_eq]
            rfl
          · rw [if_neg hE, transact_eq, transact_eq]
            rfl

/-- C8 witness: at a concrete instrument, the written bytes are the
newline-terminated command, a CRLF-terminated responce is stripped, and
a responce without the terminator is returned as-is. -/
theorem dispatcher_framing_witness :
    endsWithCRLF "ok\r\n" = true
    ∧ stripCRLF "ok\r\n" ++ "\r\n" = "ok\r\n"
    ∧ endsWithCRLF "ok" = false
    ∧ stripCRLF "ok" = "ok"
    ∧ (transact (fun (x : Unit) (_ : String) => ("ok\r\n", x)) () "*IDN?").2.2.written
      = "*IDN?" ++ "\n" := by
  have h := dispatcher_framing (fun (x : Unit) (_ : String) => ("ok\r\n", x)) ()
    "*IDN?" true
  exact ⟨by decide, h.2.2.2.1 "ok\r\n" (by decide), by decide,
    h.2.2.2.2 "ok" (by decide), h.2.1⟩

/-- C9: for every channel and quantity, the deleter unconditionally
raises the `UnsupportedOperation` error (`RuntimeError` in the source)
with the message naming the channel and quantity; nothing is stored and
nothing is dispatched, on any of the six channel/quantity pairs. -/
theorem del_setpoint_unsupported (st : SupplyState) (ch : Channel)
    (q : Quantity) :
    (del_setpoint st ch q).result
      = .error (.unsupportedOperation (delMessage ch q))
    ∧ (del_setpoint st ch q).state = st
    ∧ (del_setpoint st ch q).sent = []
    ∧ (del_setpoint st ch q).events = []
    ∧ ∀ x : Unit, ¬ (del_setpoint st ch q).result = .ok x :=
  ⟨rfl, rfl, rfl, rfl, fun _ hx => Except.noConfusion hx⟩

/-- C10: for every channel and quantity and every instrument behaviour,
the getter leaves the whole stored state — in particular every stored
setpoint — unchanged: setpoints are never written from a parsed
instrument responce, even when the parsed responce differs from the
stored value (the mismatch branch also leaves the state untouched). -/
theorem get_setpoint_frame {I : Type} (step : I → String → String × I)
    (i : I) (st : SupplyState) (ch : Channel) (q : Quantity) :
    (get_setpoint step i st ch q).state = st
    ∧ ∀ (ch2 : Channel) (q2 : Quantity),
        (get_setpoint step i st ch q).state.setpoint ch2 q2
          = st.setpoint ch2 q2 := by
  have hstate : (get_setpoint step i st ch q).state = st := by
    unfold get_setpoint
    rw [generate_apply_query]
    dsimp only
    cases hp : parse_dual_field
        (send_scpi step i (queryCommandString ch)).responce q with
    | error e => rfl
    | ok val =>
        dsimp only
        split <;> rfl
  exact ⟨hstate, fun ch2 q2 => by rw [hstate]⟩

/-- C9 witness: deleting the P6V voltage on a default instance raises
`UnsupportedOperation` with the source's message. -/
theorem del_setpoint_unsupported_witness :
    (del_setpoint defaultState .P6V .voltage).result
      = .error (.unsupportedOperation
          "You cannot delete the P6V voltage of your power supply.") :=
  (del_setpoint_unsupported defaultState .P6V .voltage).1

/-- C10 witness: a concrete read against a silent instrument leaves the
default state untouched. -/
theorem get_setpoint_frame_witness :
    (get_setpoint (fun (x : Unit) (_ : String) => ("", x)) () defaultState
      .P6V .voltage).state = defaultState :=
  (get_setpoint_frame (fun (x : Unit) (_ : String) => ("", x)) () defaultState
    .P6V .voltage).1

/-- C4 counterexample: with the stored P6V voltage at its default 0 and
an instrument reporting 9.0, the getter does not surface a recoverable
condition and carry on — it raises the hard `assert`
(`AssertionError`), so the operation yields no value at all. This
refutes the claim that the mismatch is surfaced as a recoverable
`StateDivergence` condition rather than aborting. -/
theorem get_mismatch_aborts_cex :
    (get_setpoint (fun (x : Unit) (b : String) =>
        (if chopNL b = "SYSTem:ERRor?" then noErrorString ++ "\r\n"
         else "\"9.000000\",\"0.000000\"\r\n", x)) () defaultState
        .P6V .voltage).result
      = .error (.assertionFailure 0 9)
    ∧ ∀ x : ℚ,
        ¬ (get_setpoint (fun (x2 : Unit) (b : String) =>
            (if chopNL b = "SYSTem:ERRor?" then noErrorString ++ "\r\n"
             else "\"9.000000\",\"0.000000\"\r\n", x2)) () defaultState
            .P6V .voltage).result = .ok x := by
  have h0 : (get_setpoint (fun (x : Unit) (b : String) =>
      (if chopNL b = "SYSTem:ERRor?" then noErrorString ++ "\r\n"
       else "\"9.000000\",\"0.000000\"\r\n", x)) () defaultState
      .P6V .voltage).result = .error (.assertionFailure 0 9) := by decide
  refine ⟨h0, fun x hx => ?_⟩
  rw [h0] at hx
  exact Except.noConfusion hx

/-- C4 as amended: for every channel/quantity, the getter dispatches the
query command and parses the dual responce; when the parsed value is
close (relative tolerance `1e-09`, `math.isclose`) to the stored
setpoint it is returned, and when it is not, the getter raises the hard
assertion (`AssertionError`) naming both the stored and the observed
value — aborting the read rather than surfacing a recoverable
condition. -/
theorem get_setpoint_divergence {I : Type} (step : I → String → String × I)
    (i : I) (st : SupplyState) (ch : Channel) (q : Quantity) (rv : ℚ)
    (hp : parse_dual_field
        (send_scpi step i (queryCommandString ch)).responce q = .ok rv) :
    (get_setpoint step i st ch q).sent = [queryCommandString ch]
    ∧ (isclose rv (st.setpoint ch q) = true →
        (get_setpoint step i st ch q).result = .ok rv)
    ∧ (isclose rv (st.setpoint ch q) = false →
        (get_setpoint step i st ch q).result
          = .error (.assertionFailure (st.setpoint ch q) rv)) := by
  unfold get_setpoint
  rw [generate_apply_query]
  dsimp only
  rw [hp]
  dsimp only
  refine ⟨?_, ?_, ?_⟩
  · split <;> rfl
  · intro hc
    rw [if_pos hc]
  · intro hc
    rw [if_neg (by rw [hc]; exact Bool.false_ne_true)]

/-- C4 amended-claim witness: with the instrument reporting 9.0 against
a stored 0, the parse succeeds with 9, the closeness check fails, and
the getter raises the assertion naming 0 (stored) and 9 (observed). -/
theorem get_setpoint_divergence_witness :
    parse_dual_field
        (send_scpi (fun (x : Unit) (b : String) =>
          (if chopNL b = "SYSTem:ERRor?" then noErrorString ++ "\r\n"
           else "\"9.000000\",\"0.000000\"\r\n", x)) ()
          (queryCommandString .P6V)).responce .voltage = .ok 9
    ∧ isclose 9 (defaultState.setpoint .P6V .voltage) = false
    ∧ (get_setpoint (fun (x : Unit) (b : String) =>
        (if chopNL b = "SYSTem:ERRor?" then noErrorString ++ "\r\n"
         else "\"9.000000\",\"0.000000\"\r\n", x)) () defaultState
        .P6V .voltage).result
      = .error (.assertionFailure (defaultState.setpoint .P6V .voltage) 9) := by
  refine ⟨by decide, by decide, ?_⟩
  exact (get_setpoint_divergence (fun (x : Unit) (b : String) =>
      (if chopNL b = "SYSTem:ERRor?" then noErrorString ++ "\r\n"
       else "\"9.000000\",\"0.000000\"\r\n", x)) () defaultState
      .P6V .voltage 9 (by decide)).2.2 (by decide)
